import Mathlib

/-!
Verification development for the Nexus Clinical Decision Support dashboard
(`app.py`): a shallow embedding of its classifier, PDF exporter, audit store
and intake/fetch handlers, with theorems about the documented behaviour.
-/

/-- Boolean test that the list `n` is an initial segment of `h`
(the building block of Python's substring operator `in`). -/
def startsWith : List Char → List Char → Bool
  | [], _ => true
  | _ :: _, [] => false
  | a :: as, b :: bs => a == b && startsWith as bs

/-- Boolean substring containment, embedding Python's `n in h` on strings. -/
def containsSub (n : List Char) : List Char → Bool
  | [] => startsWith n []
  | b :: bs => startsWith n (b :: bs) || containsSub n bs

theorem startsWith_iff (n : List Char) :
    ∀ h : List Char, startsWith n h = true ↔ ∃ t, h = n ++ t := by
  induction n with
  | nil => intro h; simp [startsWith]
  | cons a as ih =>
    intro h
    cases h with
    | nil => simp [startsWith]
    | cons b bs =>
      simp only [startsWith, Bool.and_eq_true, beq_iff_eq, ih bs, List.cons_append,
        List.cons.injEq]
      constructor
      · rintro ⟨hab, t, ht⟩
        exact ⟨t, hab.symm, ht⟩
      · rintro ⟨t, hba, ht⟩
        exact ⟨hba.symm, t, ht⟩

theorem containsSub_iff (n : List Char) :
    ∀ h : List Char, containsSub n h = true ↔ ∃ p t, h = p ++ n ++ t := by
  intro h
  induction h with
  | nil =>
    simp only [containsSub, startsWith_iff]
    constructor
    · rintro ⟨t, ht⟩
      exact ⟨[], t, by simpa using ht⟩
    · rintro ⟨p, t, ht⟩
      have h1 := List.append_eq_nil.mp ht.symm
      have h2 := List.append_eq_nil.mp h1.1
      exact ⟨t, by simp [h2.2, h1.2]⟩
  | cons b bs ih =>
    simp only [containsSub, Bool.or_eq_true, startsWith_iff, ih]
    constructor
    · rintro (⟨t, ht⟩ | ⟨p, t, ht⟩)
      · exact ⟨[], t, by simp [ht]⟩
      · exact ⟨b :: p, t, by simp [ht]⟩
    · rintro ⟨p, t, ht⟩
      cases p with
      | nil => exact Or.inl ⟨t, by simpa using ht⟩
      | cons c p =>
        right
        refine ⟨p, t, ?_⟩
        have h3 := List.cons.inj (show b :: bs = c :: (p ++ n ++ t) by simpa using ht)
        simpa using h3.2

/-- Propositional substring relation used as the specification-side reference:
`n` occurs contiguously inside `h`. -/
def SubstringOf (n h : String) : Prop :=
  ∃ p t, h.data = p ++ n.data ++ t

instance instDecSubstringOf (n h : String) : Decidable (SubstringOf n h) :=
  decidable_of_iff (containsSub n.data h.data = true) (containsSub_iff n.data h.data)

/-- Embedding of the intake classifier heuristic of `app.py`:
`level = "Red" if "Red" in result else "Yellow" if "Yellow" in result else "Green"`. -/
def level (result : String) : String :=
  if containsSub "Red".data result.data then "Red"
  else if containsSub "Yellow".data result.data then "Yellow"
  else "Green"

/-- Reference classifier written from the specification's words: Red when the
report contains the substring "Red", else Yellow when it contains "Yellow",
else Green, with case-sensitive containment. -/
def classifierRef (s : String) : String :=
  if SubstringOf "Red" s then "Red"
  else if SubstringOf "Yellow" s then "Yellow"
  else "Green"

/-- C1: for every report string, the classifier output equals the reference
definition (case-sensitive first-match in priority order Red, Yellow, Green),
and the output is always one of the three enumerated values. -/
theorem level_matches_ref (s : String) :
    level s = classifierRef s ∧
      (level s = "Red" ∨ level s = "Yellow" ∨ level s = "Green") := by
  constructor
  · unfold level classifierRef
    by_cases h1 : SubstringOf "Red" s
    · rw [if_pos ((containsSub_iff _ _).mpr h1), if_pos h1]
    · rw [if_neg (fun hc => h1 ((containsSub_iff _ _).mp hc)), if_neg h1]
      by_cases h2 : SubstringOf "Yellow" s
      · rw [if_pos ((containsSub_iff _ _).mpr h2), if_pos h2]
      · rw [if_neg (fun hc => h2 ((containsSub_iff _ _).mp hc)), if_neg h2]
  · unfold level
    split_ifs <;> simp

/-- One row of the `triage_logs` table of `clinical_vault.db`
(columns as created by `init_db`). PDF bytes are modelled as `List Nat`. -/
structure Row where
  id : Nat
  timestamp : String
  patient_id : String
  symptoms : String
  brief : String
  confidence : Int
  triage_level : String
  pdf_blob : List Nat
deriving DecidableEq, Repr

/-- The audit store: the `triage_logs` table together with the sqlite
AUTOINCREMENT counter that assigns the next row id (ids start at 1). -/
structure Store where
  nextId : Nat
  rows : List Row
deriving DecidableEq, Repr

/-- Store invariant maintained by sqlite: row ids are strictly increasing in
insertion order (hence unique), and all are below the AUTOINCREMENT counter. -/
def StoreInv (s : Store) : Prop :=
  s.rows.Pairwise (fun a b => a.id < b.id) ∧ ∀ r ∈ s.rows, r.id < s.nextId

/-- Embedding of `save_to_db`: INSERT a fresh row into `triage_logs`; sqlite
assigns id `nextId` and bumps the counter.  The wall-clock timestamp computed
by `datetime.now().strftime` is passed in as `now`.  Returns the updated store
and the id the store assigned. -/
def save_to_db (s : Store) (now p_id symp brief : String) (conf : Int)
    (lvl : String) (pdf_bytes : List Nat) : Store × Nat :=
  (⟨s.nextId + 1, s.rows ++ [⟨s.nextId, now, p_id, symp, brief, conf, lvl, pdf_bytes⟩]⟩,
    s.nextId)

/-- Embedding of the tab3 fetch query:
`SELECT pdf_blob, patient_id FROM triage_logs WHERE id = ?` + `fetchone()`. -/
def fetchReport (s : Store) (i : Nat) : Option (List Nat × String) :=
  match s.rows.find? (fun r => r.id == i) with
  | none => none
  | some r => some (r.pdf_blob, r.patient_id)

theorem find_append_right {α : Type} (p : α → Bool) (l₁ l₂ : List α)
    (h : ∀ x ∈ l₁, p x = false) : (l₁ ++ l₂).find? p = l₂.find? p := by
  induction l₁ with
  | nil => rfl
  | cons a as ih =>
    rw [List.cons_append, List.find?_cons_of_neg _ (by simp [h a (by simp)])]
    exact ih (fun x hx => h x (by simp [hx]))

theorem find_mem_of_pairwise (rows : List Row)
    (hp : rows.Pairwise (fun a b => a.id < b.id)) (r : Row) (hr : r ∈ rows) :
    rows.find? (fun x => x.id == r.id) = some r := by
  induction rows with
  | nil => cases hr
  | cons a as ih =>
    rcases List.mem_cons.mp hr with h | h
    · subst h
      exact List.find?_cons_of_pos _ (by simp)
    · have ha : a.id < r.id := (List.pairwise_cons.mp hp).1 r h
      rw [List.find?_cons_of_neg _ (by simp [Nat.ne_of_lt ha])]
      exact ih (List.pairwise_cons.mp hp).2 h

/-- C2: append-then-fetch round-trip.  Appending a record through `save_to_db`
and fetching by the id the store assigned returns a PDF blob byte-identical to
the appended `pdf_bytes` and the same `patient_id`. -/
theorem save_fetch_roundtrip (s : Store) (hs : StoreInv s)
    (now p_id symp brief : String) (conf : Int) (lvl : String)
    (pdf_bytes : List Nat) :
    fetchReport (save_to_db s now p_id symp brief conf lvl pdf_bytes).1
        (save_to_db s now p_id symp brief conf lvl pdf_bytes).2 =
      some (pdf_bytes, p_id) := by
  unfold fetchReport save_to_db
  rw [find_append_right _ _ _
    (fun x hx => by simp [Nat.ne_of_lt (hs.2 x hx)])]
  simp [List.find?]

/-- Witness for C2 at a concrete store and record. -/
theorem save_fetch_roundtrip_witness :
    fetchReport (save_to_db ⟨1, []⟩ "2026-10-12 09:00" "P1" "chest pain" "brief" 92 "Red"
        [37, 80, 68, 70]).1
      (save_to_db ⟨1, []⟩ "2026-10-12 09:00" "P1" "chest pain" "brief" 92 "Red"
        [37, 80, 68, 70]).2 = some ([37, 80, 68, 70], "P1") :=
  save_fetch_roundtrip ⟨1, []⟩ ⟨List.Pairwise.nil, fun r hr => absurd hr (List.not_mem_nil r)⟩
    "2026-10-12 09:00" "P1" "chest pain" "brief" 92 "Red" [37, 80, 68, 70]

/-- C7: fetch is guarded.  For an id matching no row the fetch yields an empty
result (no download offered) instead of failing; for an id of a stored row it
yields exactly that row's PDF blob and patient id. -/
theorem fetchReport_guarded (s : Store) (hs : StoreInv s) (i : Nat) :
    ((∀ r ∈ s.rows, r.id ≠ i) → fetchReport s i = none) ∧
    (∀ r ∈ s.rows, r.id = i → fetchReport s i = some (r.pdf_blob, r.patient_id)) := by
  constructor
  · intro h
    unfold fetchReport
    rw [List.find?_eq_none.mpr (fun x hx => by simp [h x hx])]
  · intro r hr hid
    unfold fetchReport
    rw [← hid, find_mem_of_pairwise s.rows hs.1 r hr]

/-- Witness for C7: on a one-row store, a missing id yields none and the
stored id yields the stored blob and patient id. -/
theorem fetchReport_guarded_witness :
    fetchReport ⟨2, [⟨1, "2026-10-12 09:00", "P1", "n", "b", 92, "Green", [37, 66]⟩]⟩ 5 =
        none ∧
      fetchReport ⟨2, [⟨1, "2026-10-12 09:00", "P1", "n", "b", 92, "Green", [37, 66]⟩]⟩ 1 =
        some ([37, 66], "P1") := by
  have hinv : StoreInv ⟨2, [⟨1, "2026-10-12 09:00", "P1", "n", "b", 92, "Green", [37, 66]⟩]⟩ :=
    ⟨List.pairwise_singleton _ _, by intro r hr; rw [List.mem_singleton.mp hr]; decide⟩
  refine ⟨?_, ?_⟩
  · exact (fetchReport_guarded _ hinv 5).1
      (by intro r hr; rw [List.mem_singleton.mp hr]; decide)
  · exact (fetchReport_guarded _ hinv 1).2 _ (List.mem_singleton.mpr rfl) rfl

/-- Bundled arguments of one `save_to_db` call (one triage run). -/
structure RunData where
  now : String
  p_id : String
  symp : String
  brief : String
  conf : Int
  lvl : String
  pdf_bytes : List Nat
deriving DecidableEq, Repr

/-- The row that `save_to_db` inserts for run `d` on store `s`. -/
def newRow (s : Store) (d : RunData) : Row :=
  ⟨s.nextId, d.now, d.p_id, d.symp, d.brief, d.conf, d.lvl, d.pdf_bytes⟩

/-- Store after one `save_to_db` call. -/
def appendRun (s : Store) (d : RunData) : Store :=
  (save_to_db s d.now d.p_id d.symp d.brief d.conf d.lvl d.pdf_bytes).1

theorem appendRun_rows (s : Store) (d : RunData) :
    (appendRun s d).rows = s.rows ++ [newRow s d] := rfl

theorem storeInv_appendRun (s : Store) (hs : StoreInv s) (d : RunData) :
    StoreInv (appendRun s d) := by
  obtain ⟨hpw, hlt⟩ := hs
  constructor
  · rw [appendRun_rows]
    exact List.pairwise_append.mpr
      ⟨hpw, List.pairwise_singleton _ _,
        fun a ha b hb => by rw [List.mem_singleton.mp hb]; exact hlt a ha⟩
  · intro r hr
    rw [appendRun_rows] at hr
    rcases List.mem_append.mp hr with h | h
    · exact Nat.lt_trans (hlt r h) (Nat.lt_succ_self _)
    · rw [List.mem_singleton.mp h]
      exact Nat.lt_succ_self _

/-- C8: store invariants are preserved by the only mutating operation.
Appending never modifies or deletes an existing row (the old rows survive
unchanged as a prefix), the assigned id is the counter value, it is strictly
greater than every existing id, ids stay unique, and the invariant holds
again afterwards. -/
theorem store_invariants (s : Store) (hs : StoreInv s) (d : RunData) :
    StoreInv (appendRun s d) ∧
    (appendRun s d).rows = s.rows ++ [newRow s d] ∧
    (newRow s d).id = s.nextId ∧
    (∀ r ∈ s.rows, r.id < (newRow s d).id) ∧
    ((appendRun s d).rows.map (fun r => r.id)).Nodup := by
  refine ⟨storeInv_appendRun s hs d, appendRun_rows s d, rfl, fun r hr => hs.2 r hr, ?_⟩
  have hpw := (storeInv_appendRun s hs d).1
  exact List.Pairwise.map _ (fun a b h => Nat.ne_of_lt h) hpw

/-- Witness for C8 on a concrete store and run. -/
theorem store_invariants_witness :
    StoreInv (appendRun ⟨1, []⟩ ⟨"t", "P1", "n", "b", 92, "Green", [37]⟩) ∧
    (appendRun ⟨1, []⟩ ⟨"t", "P1", "n", "b", 92, "Green", [37]⟩).rows =
      [] ++ [newRow ⟨1, []⟩ ⟨"t", "P1", "n", "b", 92, "Green", [37]⟩] ∧
    (newRow ⟨1, []⟩ ⟨"t", "P1", "n", "b", 92, "Green", [37]⟩).id = 1 ∧
    (∀ r ∈ ([] : List Row), r.id < (newRow ⟨1, []⟩ ⟨"t", "P1", "n", "b", 92, "Green", [37]⟩).id) ∧
    ((appendRun ⟨1, []⟩ ⟨"t", "P1", "n", "b", 92, "Green", [37]⟩).rows.map (fun r => r.id)).Nodup :=
  store_invariants ⟨1, []⟩ ⟨List.Pairwise.nil, fun r hr => absurd hr (List.not_mem_nil r)⟩
    ⟨"t", "P1", "n", "b", 92, "Green", [37]⟩

/-- Insert a row into a list that is sorted by descending id, keeping it
sorted (helper for the embedding of `ORDER BY id DESC`). -/
def insertDesc (r : Row) : List Row → List Row
  | [] => [r]
  | x :: xs => if x.id ≤ r.id then r :: x :: xs else x :: insertDesc r xs

/-- Sort rows by descending id: the embedding of `ORDER BY id DESC`. -/
def sortDesc : List Row → List Row
  | [] => []
  | x :: xs => insertDesc x (sortDesc xs)

/-- One line of the audit-history table: the projection
`SELECT id, timestamp, patient_id, triage_level` of a row. -/
structure RecordSummary where
  id : Nat
  timestamp : String
  patient_id : String
  triage_level : String
deriving DecidableEq, Repr

/-- Embedding of the tab3 history query:
`SELECT id, timestamp, patient_id, triage_level FROM triage_logs ORDER BY id DESC`. -/
def history_df (s : Store) : List RecordSummary :=
  (sortDesc s.rows).map (fun r => ⟨r.id, r.timestamp, r.patient_id, r.triage_level⟩)

/-- The summary line produced for run `d` when it was assigned id `i`. -/
def summaryOf (i : Nat) (d : RunData) : RecordSummary :=
  ⟨i, d.now, d.p_id, d.lvl⟩

theorem insertDesc_append (r : Row) (m : List Row) (h : ∀ y ∈ m, r.id < y.id) :
    insertDesc r m = m ++ [r] := by
  induction m with
  | nil => rfl
  | cons x xs ih =>
    have hx := h x (by simp)
    rw [insertDesc, if_neg (by omega)]
    rw [ih (fun y hy => h y (by simp [hy]))]
    rfl

theorem sortDesc_of_sorted (l : List Row)
    (h : l.Pairwise (fun a b => a.id < b.id)) : sortDesc l = l.reverse := by
  induction l with
  | nil => rfl
  | cons x xs ih =>
    obtain ⟨hx, hxs⟩ := List.pairwise_cons.mp h
    rw [sortDesc, ih hxs,
      insertDesc_append x xs.reverse (fun y hy => hx y (List.mem_reverse.mp hy))]
    simp

/-- C4: the audit-history listing is ordered newest-first by id.  After
appending runs `d1`, `d2`, `d3` in that order (they receive the strictly
increasing ids `nextId`, `nextId+1`, `nextId+2`), the listing starts with
their summaries in the order d3, d2, d1, followed by the previous listing. -/
theorem history_newest_first (s : Store) (hs : StoreInv s) (d1 d2 d3 : RunData) :
    history_df (appendRun (appendRun (appendRun s d1) d2) d3) =
      summaryOf (s.nextId + 2) d3 :: summaryOf (s.nextId + 1) d2 ::
        summaryOf s.nextId d1 :: history_df s := by
  have h1 := storeInv_appendRun s hs d1
  have h2 := storeInv_appendRun _ h1 d2
  have h3 := storeInv_appendRun _ h2 d3
  unfold history_df
  rw [sortDesc_of_sorted _ h3.1, sortDesc_of_sorted _ hs.1]
  simp [appendRun_rows, appendRun, save_to_db, newRow, summaryOf]

/-- Witness for C4: three concrete runs on the empty store list newest-first. -/
theorem history_newest_first_witness :
    history_df (appendRun (appendRun (appendRun ⟨1, []⟩
        ⟨"t1", "A", "n1", "b1", 92, "Green", [1]⟩)
        ⟨"t2", "B", "n2", "b2", 92, "Yellow", [2]⟩)
        ⟨"t3", "C", "n3", "b3", 92, "Red", [3]⟩) =
      summaryOf 3 ⟨"t3", "C", "n3", "b3", 92, "Red", [3]⟩ ::
        summaryOf 2 ⟨"t2", "B", "n2", "b2", 92, "Yellow", [2]⟩ ::
        summaryOf 1 ⟨"t1", "A", "n1", "b1", 92, "Green", [1]⟩ :: history_df ⟨1, []⟩ :=
  history_newest_first ⟨1, []⟩
    ⟨List.Pairwise.nil, fun r hr => absurd hr (List.not_mem_nil r)⟩
    ⟨"t1", "A", "n1", "b1", 92, "Green", [1]⟩
    ⟨"t2", "B", "n2", "b2", 92, "Yellow", [2]⟩
    ⟨"t3", "C", "n3", "b3", 92, "Red", [3]⟩

/-- A crewai Agent as configured in `app.py`: a role, a goal and a backstory
binding each external-model call. -/
structure AgentSpec where
  role : String
  goal : String
  backstory : String
deriving DecidableEq, Repr

/-- A crewai Task as configured in `app.py`: a description, the role of the
agent executing it, and its expected-output hint. -/
structure TaskSpec where
  description : String
  agentRole : String
  expected : String
deriving DecidableEq, Repr

/-- The Medical Scribe agent of `app.py`. -/
def scribe : AgentSpec :=
  ⟨"Medical Scribe",
   "Extract and structure clinical symptoms from raw notes.",
   "Expert in clinical entity extraction and medical terminology."⟩

/-- The Triage Nurse agent of `app.py`. -/
def nurse : AgentSpec :=
  ⟨"Triage Nurse",
   "Determine urgency and provide a briefing.",
   "ER specialist trained in ESI (Emergency Severity Index) triage."⟩

/-- Task t1 of `app.py`, parameterised by the submitted narrative. -/
def t1 (p_notes : String) : TaskSpec :=
  ⟨"Analyze: " ++ p_notes ++
     ". Extract symptoms and assign a confidence score (0-100) based on data clarity.",
   scribe.role,
   "A structured list of symptoms and an integer confidence_score."⟩

/-- Task t2 of `app.py`. -/
def t2 : TaskSpec :=
  ⟨"Determine Triage Level (Red/Yellow/Green) and write a 100-word brief for a doctor.",
   nurse.role,
   "Triage Level and Clinical Brief."⟩

/-- The task list handed to `Crew(..., process=Process.sequential)` in
`app.py`: exactly the two tasks t1 and t2. -/
def crewTasks (p_notes : String) : List TaskSpec :=
  [t1 p_notes, t2]

/-- Modelled from the spec: the crewai sequential `kickoff` (the crewai
library itself is not part of this repository).  Tasks run in order; each one
is a single role-prompted external-model call conditioned on its fixed role
and on the previous call's output as shared context, and the crew result is
the final task's output.  The external model is the oracle `llm role prompt`.
Returns the result string together with the number of model calls made. -/
def kickoff (llm : String → String → String) : List TaskSpec → String → String × Nat
  | [], ctx => (ctx, 0)
  | t :: ts, ctx =>
    let out := llm t.agentRole (t.description ++ "\n" ++ ctx)
    let rest := kickoff llm ts out
    (rest.1, rest.2 + 1)

/-- Result of `str(crew.kickoff())` in the tab1 handler, with its call count. -/
def crewResult (llm : String → String → String) (p_notes : String) : String × Nat :=
  kickoff llm (crewTasks p_notes) ""

/-- Counterexample to C5: on a concrete narrative the pipeline makes two
external-model calls, not three. -/
theorem crew_not_three_calls :
    ¬ ((crewResult (fun _ _ => "Red") "62yo male, crushing chest pain").2 = 3) := by
  decide

/-- C5 (amended): for every narrative and model oracle, the pipeline makes
exactly two sequential role-prompted calls — the scribe extracts symptoms,
then the nurse assigns urgency and writes the brief conditioned on the
scribe's output — and the report is the single string the final call returns. -/
theorem crew_two_sequential_calls (llm : String → String → String) (p_notes : String) :
    (crewResult llm p_notes).2 = 2 ∧
    (crewResult llm p_notes).1 =
      llm nurse.role
        (t2.description ++ "\n" ++
          llm scribe.role ((t1 p_notes).description ++ "\n" ++ "")) := by
  constructor <;> rfl

/-- Clean-up step of `create_pdf`: Python's
`text.encode('latin-1', 'replace').decode('latin-1')`, which replaces every
character outside the latin-1 range (code point > 255) with `?`. -/
def latin1Replace (text : String) : String :=
  String.mk (text.data.map (fun c => if c.toNat ≤ 255 then c else '?'))

/-- Modelled from the spec: the fpdf rendering step of `create_pdf` (the fpdf
library is not part of this repository).  It serializes the cleaned text into
a single-page PDF byte buffer, modelled as a PDF header, the latin-1 bytes of
the text, and a trailer. -/
def fpdf_output (clean : String) : List Nat :=
  "%PDF-1.3 ".data.map Char.toNat ++ clean.data.map Char.toNat ++
    " %%EOF".data.map Char.toNat

/-- Embedding of `create_pdf` of `app.py`. -/
def create_pdf (text : String) : List Nat :=
  fpdf_output (latin1Replace text)

/-- C3: PDF export is total.  For every input string the export produces a
non-empty byte buffer whose bytes all fit in the latin-1 range (so the final
`encode('latin-1')` cannot fail), characters outside latin-1 are replaced by
the placeholder `?`, and latin-1 characters are kept unchanged. -/
theorem create_pdf_total (text : String) :
    create_pdf text ≠ [] ∧
    (∀ b ∈ create_pdf text, b < 256) ∧
    (∀ (i : Nat) (c : Char), text.data[i]? = some c → 255 < c.toNat →
      (latin1Replace text).data[i]? = some '?') ∧
    (∀ (i : Nat) (c : Char), text.data[i]? = some c → c.toNat ≤ 255 →
      (latin1Replace text).data[i]? = some c) := by
  refine ⟨?_, ?_, ?_, ?_⟩
  · intro h
    have hlen := congrArg List.length h
    simp [create_pdf, fpdf_output] at hlen
  · intro b hb
    unfold create_pdf fpdf_output at hb
    rcases List.mem_append.mp hb with hb' | hb'
    rcases List.mem_append.mp hb' with hh | hm
    · rcases List.mem_map.mp hh with ⟨c, hc, rfl⟩
      exact (by decide : ∀ c ∈ "%PDF-1.3 ".data, c.toNat < 256) c hc
    · rcases List.mem_map.mp hm with ⟨c, hc, rfl⟩
      unfold latin1Replace at hc
      rcases List.mem_map.mp hc with ⟨c0, _, rfl⟩
      by_cases hle : c0.toNat ≤ 255
      · simpa [hle] using Nat.lt_succ_of_le hle
      · simp [hle]
    · rcases List.mem_map.mp hb' with ⟨c, hc, rfl⟩
      exact (by decide : ∀ c ∈ " %%EOF".data, c.toNat < 256) c hc
  · intro i c hc hgt
    unfold latin1Replace
    simp only [List.getElem?_map, hc, Option.map_some']
    rw [if_neg (Nat.not_le.mpr hgt)]
  · intro i c hc hle
    unfold latin1Replace
    simp only [List.getElem?_map, hc, Option.map_some']
    rw [if_pos hle]

/-- Witness for C3 at the string "π": the export is non-empty and the
non-latin-1 character π becomes the placeholder. -/
theorem create_pdf_total_witness :
    create_pdf "π" ≠ [] ∧ (latin1Replace "π").data[0]? = some '?' :=
  ⟨(create_pdf_total "π").1,
    (create_pdf_total "π").2.2.1 0 'π' (by decide) (by decide)⟩

/-- Everything the tab1 intake handler produces on one interaction: the store
after the run, the status/metric/report messages rendered in the output
column, the number of external-model calls made, and the offered download
(filename and bytes), if any. -/
structure IntakeOutput where
  store : Store
  messages : List String
  llmCalls : Nat
  download : Option (String × List Nat)
deriving DecidableEq, Repr

/-- Embedding of the tab1 intake handler of `app.py`.  The guard is Python's
`if run_btn and p_notes:` — the button state and the truthiness (non-emptiness)
of the narrative; the patient identifier is not checked.  Inside the guard it
runs the crew, classifies the result, renders the alert, metric and report,
creates the PDF, saves the record with the hardcoded confidence 92, and offers
the download `{p_id}_brief.pdf`. -/
def intakeTab (llm : String → String → String) (now p_id p_notes : String)
    (run_btn : Bool) (s : Store) : IntakeOutput :=
  if run_btn && !(p_notes == "") then
    let result := (crewResult llm p_notes).1
    let lvl := level result
    let conf : Int := 92
    let alertMsg :=
      if lvl == "Red" then "ALERT: " ++ lvl ++ " Priority Detected"
      else if lvl == "Yellow" then "ATTENTION: " ++ lvl ++ " Priority"
      else "STABLE: " ++ lvl ++ " Priority"
    let pdf_data := create_pdf result
    { store := (save_to_db s now p_id p_notes result conf lvl pdf_data).1,
      messages := [alertMsg, "AI Analysis Confidence 92%", result],
      llmCalls := (crewResult llm p_notes).2,
      download := some (p_id ++ "_brief.pdf", pdf_data) }
  else
    { store := s, messages := [], llmCalls := 0, download := none }

/-- Embedding of the tab3 Fetch Report handler: look the id up and, when a row
exists, offer the download `Recall_{patient_id}.pdf` with the stored blob. -/
def fetchTab (s : Store) (i : Nat) : Option (String × List Nat) :=
  match fetchReport s i with
  | none => none
  | some (blob, pid) => some ("Recall_" ++ pid ++ ".pdf", blob)

/-- Counterexample to C6: submitting an empty narrative is dropped silently —
the handler emits no user-visible message at all (and changes nothing). -/
theorem intake_empty_no_message :
    (intakeTab (fun _ _ => "Red") "2026-10-12 09:00" "P1" "" true ⟨1, []⟩).messages = [] ∧
    (intakeTab (fun _ _ => "Red") "2026-10-12 09:00" "P1" "" true ⟨1, []⟩).store = ⟨1, []⟩ := by
  constructor <;> rfl

/-- C6 (amended): an empty narrative is rejected locally with no side effects —
no model call, no audit record, store unchanged — but silently: the handler
shows no user-visible message (the guard has no else branch). -/
theorem intake_empty_narrative (llm : String → String → String) (now p_id : String)
    (run_btn : Bool) (s : Store) :
    intakeTab llm now p_id "" run_btn s =
      ⟨s, [], 0, none⟩ := by
  unfold intakeTab
  simp

/-- C10: the intake guard checks only the narrative.  For every non-empty
narrative the pipeline runs (a positive number of model calls) and exactly one
record is appended whose `patient_id` is whatever identifier was submitted —
the empty string included — and whose confidence is the hardcoded 92. -/
theorem intake_guard_ignores_pid (llm : String → String → String)
    (now notes : String) (s : Store) (h : notes ≠ "") (p_id : String) :
    (intakeTab llm now p_id notes true s).store.rows =
      s.rows ++ [⟨s.nextId, now, p_id, notes, (crewResult llm notes).1, 92,
        level (crewResult llm notes).1, create_pdf (crewResult llm notes).1⟩] ∧
    0 < (intakeTab llm now p_id notes true s).llmCalls := by
  have hb : (notes == "") = false := beq_eq_false_iff_ne.mpr h
  unfold intakeTab
  simp [hb, save_to_db, crew_two_sequential_calls]

/-- Witness for C10: a concrete run with an empty patient identifier appends
one row with `patient_id = ""` and confidence 92. -/
theorem intake_guard_ignores_pid_witness :
    (intakeTab (fun _ _ => "Red") "t" "" "chest pain" true ⟨1, []⟩).store.rows =
      [] ++ [⟨1, "t", "", "chest pain",
        (crewResult (fun _ _ => "Red") "chest pain").1, 92,
        level (crewResult (fun _ _ => "Red") "chest pain").1,
        create_pdf (crewResult (fun _ _ => "Red") "chest pain").1⟩] ∧
    0 < (intakeTab (fun _ _ => "Red") "t" "" "chest pain" true ⟨1, []⟩).llmCalls :=
  intake_guard_ignores_pid (fun _ _ => "Red") "t" "chest pain" ⟨1, []⟩ (by decide) ""

/-- The two download filename patterns the specification allows for a record
with patient id `pid` and timestamp `ts`. -/
def specFileName (fname pid ts : String) : Prop :=
  fname = pid ++ "_brief.pdf" ∨ fname = "Triage_" ++ ts ++ ".pdf"

/-- Counterexample to C9: fetching a concrete stored record offers the
download `Recall_P1.pdf`, which matches neither `{patient_id}_brief.pdf` nor
`Triage_{timestamp}.pdf` for that record. -/
theorem fetch_filename_not_spec_pattern :
    fetchTab ⟨2, [⟨1, "2026-01-01 10:00", "P1", "n", "b", 92, "Green", [37]⟩]⟩ 1 =
        some ("Recall_P1.pdf", [37]) ∧
      ¬ specFileName "Recall_P1.pdf" "P1" "2026-01-01 10:00" := by
  constructor
  · rfl
  · unfold specFileName
    decide

/-- C9 (amended): the two download filenames the program produces are
`{patient_id}_brief.pdf` for the download offered right after a run, and
`Recall_{patient_id}.pdf` (not `Triage_{timestamp}.pdf`) for the download
offered when retrieving a past record from the audit vault. -/
theorem download_filenames (llm : String → String → String)
    (now p_id notes : String) (s : Store) (h : notes ≠ "")
    (i : Nat) (blob : List Nat) (pid : String)
    (hf : fetchReport s i = some (blob, pid)) :
    (intakeTab llm now p_id notes true s).download =
      some (p_id ++ "_brief.pdf", create_pdf (crewResult llm notes).1) ∧
    fetchTab s i = some ("Recall_" ++ pid ++ ".pdf", blob) := by
  have hb : (notes == "") = false := beq_eq_false_iff_ne.mpr h
  constructor
  · unfold intakeTab
    simp [hb]
  · unfold fetchTab
    rw [hf]

/-- Witness for C9's amended statement on a concrete run and a concrete
stored record. -/
theorem download_filenames_witness :
    (intakeTab (fun _ _ => "Red") "t" "P1" "chest pain" true
        ⟨2, [⟨1, "2026-01-01 10:00", "Q7", "n", "b", 92, "Green", [37]⟩]⟩).download =
      some ("P1" ++ "_brief.pdf",
        create_pdf (crewResult (fun _ _ => "Red") "chest pain").1) ∧
    fetchTab ⟨2, [⟨1, "2026-01-01 10:00", "Q7", "n", "b", 92, "Green", [37]⟩]⟩ 1 =
      some ("Recall_" ++ "Q7" ++ ".pdf", [37]) :=
  download_filenames (fun _ _ => "Red") "t" "P1" "chest pain"
    ⟨2, [⟨1, "2026-01-01 10:00", "Q7", "n", "b", 92, "Green", [37]⟩]⟩
    (by decide) 1 [37] "Q7" rfl
